/-
A shallow embedding, in Lean 4, of the resilience core of the
high-availability-system Go repository, together with proofs of
properties of that code.

Embedding conventions:
* Go float64 values become ℚ (exact arithmetic; IEEE rounding is not
  modelled).  Calls to rand.Float64() become an explicit stream
  rs : Int → ℚ of values in [0, 1), indexed by the attempt number on
  which the draw is made (one draw per calculateNextInterval call).
* Go time.Duration (an int64 count of nanoseconds) becomes Int.  The Go
  conversion time.Duration(f) from float64 truncates toward zero; this
  is truncQ below.
* The loop "for attempt := 1; attempt <= config.MaxAttempts; attempt++"
  of retry.Do / retry.DoWithContext is translated structurally with an
  explicit fuel argument equal to the number of attempts still allowed,
  i.e. MaxAttempts - attempt + 1; the loop guard attempt <= MaxAttempts
  is fuel > 0, and the "attempt == config.MaxAttempts" break test is
  fuel = 1.  The top level starts at attempt = 1 with fuel =
  MaxAttempts.toNat.
* The operation under retry is fn : Int → Option String, giving for each
  attempt number the error (some msg) or success (none) that the Go
  closure would return on that invocation.
* Besides the returned error, each executor also returns the number of
  operation invocations performed and the list of completed backoff
  waits (in nanoseconds), instrumenting the Go code's observable
  behaviour (calls to fn and to time.Sleep / the backoff timer).
* A Go context.Context cancellation signal becomes done : Nat → Bool,
  indexed by the observation points of DoWithContext in program order:
  observation 2*k is the select on ctx.Done() at the top of the loop
  iteration for attempt k+1, and observation 2*k + 1 is the select
  racing the backoff timer after attempt k+1 fails.
* The MonitorWithFallback facade's primary backend and fallback strategy
  are abstracted by oracles: primaryOk says whether the primary call
  would return nil, hasFallback / fallbackEnabled model
  "fallbackStrategy != nil" and fallbackStrategy.IsEnabled().
-/
import Mathlib

namespace HASystem

namespace Retry

/-- Message of the package-level error value
ErrMaxRetriesReached = errors.New("max retries reached"). -/
def errMaxRetriesReached : String := "max retries reached"

/-- Translation of retry.Config.  Durations are nanosecond counts (Int),
floating-point fields are ℚ. -/
structure Config where
  maxAttempts : Int
  initialInterval : Int
  maxInterval : Int
  multiplier : ℚ
  randomizationFactor : ℚ
deriving Repr, DecidableEq

/-- Translation of retry.DefaultConfig: 3 attempts, 100ms initial
interval, 10s max interval, multiplier 2.0, randomization factor 0.5. -/
def DefaultConfig : Config :=
  { maxAttempts := 3
    initialInterval := 100000000
    maxInterval := 10000000000
    multiplier := 2
    randomizationFactor := 1/2 }

/-- Go's conversion time.Duration(f) from float64: truncation toward
zero. -/
def truncQ (q : ℚ) : Int := if 0 ≤ q then ⌊q⌋ else ⌈q⌉

/-- Value computed by calculateNextInterval before the final math.Min
clamp: multiply the current interval by the multiplier, form the jitter
band [interval - delta, interval + delta] with delta =
randomizationFactor * interval, and draw
minInterval + r * (maxInterval - minInterval + 1) — note the "+ 1" in
the Go source's random-range width. -/
def preClampInterval (currentInterval : Int) (config : Config) (r : ℚ) : ℚ :=
  let interval : ℚ := (currentInterval : ℚ) * config.multiplier
  let delta := config.randomizationFactor * interval
  let minInterval := interval - delta
  let maxInterval := interval + delta
  minInterval + r * (maxInterval - minInterval + 1)

/-- Translation of calculateNextInterval(currentInterval, attempt,
config) with the rand.Float64() draw made explicit as r.  The attempt
parameter is unused, exactly as in the Go source. -/
def calculateNextInterval (currentInterval : Int) (_attempt : Int) (config : Config)
    (r : ℚ) : Int :=
  truncQ (min (preClampInterval currentInterval config r) ((config.maxInterval : ℚ)))

/-- Loop body of retry.Do, with fuel = config.MaxAttempts - attempt + 1
counting the attempts still allowed.  Returns (returned error, number of
operation invocations, list of completed sleeps). -/
def doAux (fn : Int → Option String) (config : Config) (rs : Int → ℚ) :
    Nat → Int → Int → Option String × Nat × List Int
  | 0, _, _ => (none, 0, [])
  | fuel + 1, attempt, nextInterval =>
    match fn attempt with
    | none => (none, 1, [])
    | some e =>
      if fuel = 0 then
        (some (e ++ ": " ++ errMaxRetriesReached), 1, [])
      else
        let ni := calculateNextInterval nextInterval attempt config (rs attempt)
        let rest := doAux fn config rs fuel (attempt + 1) ni
        (rest.1, rest.2.1 + 1, ni :: rest.2.2)

/-- Translation of retry.Do(fn, config), instrumented with the
invocation count and the list of completed sleeps. -/
def Do (fn : Int → Option String) (config : Config) (rs : Int → ℚ) :
    Option String × Nat × List Int :=
  doAux fn config rs config.maxAttempts.toNat 1 config.initialInterval

/-- Error returned by retry.DoWithContext: nil, ctx.Err(), or the
wrapped exhaustion error. -/
inductive CtxError where
  | success
  | cancelled
  | exhausted (msg : String)
deriving Repr, DecidableEq

/-- Loop body of retry.DoWithContext; t is the index of the next
observation of the cancellation signal (see the file header). -/
def doCtxAux (fn : Int → Option String) (config : Config) (rs : Int → ℚ)
    (done : Nat → Bool) :
    Nat → Int → Int → Nat → CtxError × Nat × List Int
  | 0, _, _, _ => (.success, 0, [])
  | fuel + 1, attempt, nextInterval, t =>
    if done t then (.cancelled, 0, [])
    else
      match fn attempt with
      | none => (.success, 1, [])
      | some e =>
        if fuel = 0 then
          (.exhausted (e ++ ": " ++ errMaxRetriesReached), 1, [])
        else
          let ni := calculateNextInterval nextInterval attempt config (rs attempt)
          if done (t + 1) then (.cancelled, 1, [])
          else
            let rest := doCtxAux fn config rs done fuel (attempt + 1) ni (t + 2)
            (rest.1, rest.2.1 + 1, ni :: rest.2.2)

/-- Translation of retry.DoWithContext(ctx, fn, config), instrumented
with the invocation count and the list of completed waits. -/
def DoWithContext (fn : Int → Option String) (config : Config) (rs : Int → ℚ)
    (done : Nat → Bool) : CtxError × Nat × List Int :=
  doCtxAux fn config rs done config.maxAttempts.toNat 1 config.initialInterval 0

/-- Policy of the spec's retry scenario: {maxAttempts=3,
initialInterval=100ms, maxInterval=1s, multiplier=2.0, jitterFactor=0}. -/
def scenarioConfig : Config :=
  { maxAttempts := 3
    initialInterval := 100000000
    maxInterval := 1000000000
    multiplier := 2
    randomizationFactor := 0 }

/-- Scenario operation: fails on attempts 1 and 2, succeeds on attempt
3. -/
def scenarioFn : Int → Option String :=
  fun attempt => if attempt ≤ 2 then some "transient" else none

end Retry

namespace Monitors

/-- Metric type string constants of the monitors package. -/
def counterType : String := "counter"

/-- Gauge metric type constant. -/
def gaugeType : String := "gauge"

/-- Histogram metric type constant. -/
def histogramType : String := "histogram"

/-- Outcome of one facade write call (Counter / Gauge / Histogram):
nil from the primary backend, the fallback strategy's HandleFailure
result (nil for LocalLoggingFallback), or
ErrMonitoringSystemUnavailable. -/
inductive WriteResult where
  | ok
  | fallbackHandled
  | unavailable
deriving Repr, DecidableEq

/-- Observable effect of one facade write call: the facade's isHealthy
field after the call, whether the primary backend method was invoked,
and the returned error. -/
structure WriteOut where
  isHealthy : Bool
  primaryInvoked : Bool
  result : WriteResult
deriving Repr, DecidableEq

/-- Shared body of MonitorWithFallback.Counter / .Gauge / .Histogram:
read isHealthy; if healthy try the primary backend (oracle primaryOk),
degrading on failure; otherwise skip the primary; then use the fallback
strategy if present and enabled, else return
ErrMonitoringSystemUnavailable. -/
def writeStep (isHealthy : Bool) (hasFallback fallbackEnabled : Bool)
    (primaryOk : Bool) : WriteOut :=
  if isHealthy then
    if primaryOk then ⟨true, true, .ok⟩
    else if hasFallback && fallbackEnabled then ⟨false, true, .fallbackHandled⟩
    else ⟨false, true, .unavailable⟩
  else
    if hasFallback && fallbackEnabled then ⟨false, false, .fallbackHandled⟩
    else ⟨false, false, .unavailable⟩

/-- Translation of MonitorWithFallback.Counter; the primary backend call
primaryMonitor.Counter is abstracted by the oracle primaryOk. -/
def Counter (isHealthy hasFallback fallbackEnabled primaryOk : Bool) : WriteOut :=
  writeStep isHealthy hasFallback fallbackEnabled primaryOk

/-- Translation of MonitorWithFallback.Gauge. -/
def Gauge (isHealthy hasFallback fallbackEnabled primaryOk : Bool) : WriteOut :=
  writeStep isHealthy hasFallback fallbackEnabled primaryOk

/-- Translation of MonitorWithFallback.Histogram. -/
def Histogram (isHealthy hasFallback fallbackEnabled primaryOk : Bool) : WriteOut :=
  writeStep isHealthy hasFallback fallbackEnabled primaryOk

/-- State of a MonitorWithFallback relevant to the health state machine:
the isHealthy flag and whether the periodic health-check ticker was
started (healthCheckTicker != nil). -/
structure MonitorWithFallback where
  isHealthy : Bool
  tickerStarted : Bool
deriving Repr, DecidableEq

/-- Translation of NewMonitorWithFallback: the facade starts with
isHealthy = true, and the periodic health-check goroutine is started iff
periodicCheck > 0. -/
def NewMonitorWithFallback (periodicCheck : Int) : MonitorWithFallback :=
  { isHealthy := true, tickerStarted := decide (0 < periodicCheck) }

/-- One iteration of periodicHealthCheck: isHealthy is set to the
probe's boolean result, regardless of the previous state. -/
def periodicHealthCheckStep (_isHealthy : Bool) (probeHealthy : Bool) : Bool :=
  probeHealthy

/-- Event affecting the facade's isHealthy state: a write call (with the
primary-backend outcome oracle) or one periodicHealthCheck probe
iteration (with the probe's boolean result). -/
inductive FacadeEvent where
  | write (primaryOk : Bool)
  | probe (probeHealthy : Bool)
deriving Repr, DecidableEq

/-- Evolution of the facade's isHealthy flag under one event. -/
def facadeStep (hasFallback fallbackEnabled : Bool) (s : Bool) :
    FacadeEvent → Bool
  | .write primaryOk => (writeStep s hasFallback fallbackEnabled primaryOk).isHealthy
  | .probe probeHealthy => periodicHealthCheckStep s probeHealthy

/-- Evolution of the facade's isHealthy flag under a sequence of
events. -/
def facadeRun (hasFallback fallbackEnabled : Bool) (s : Bool)
    (events : List FacadeEvent) : Bool :=
  events.foldl (facadeStep hasFallback fallbackEnabled) s

/-- Translation of monitors.MetricData. -/
structure MetricData where
  name : String
  type : String
  value : ℚ
  labels : List (String × String)
  timestamp : Int
deriving Repr, DecidableEq

/-- State of a LocalLoggingFallback: the enabled flag, the in-memory
buffer, the configured maximum buffer size, and the records the logger
has durably written (one list of points per flush). -/
structure LocalLoggingFallback where
  enabled : Bool
  buffer : List MetricData
  maxSize : Int
  log : List (List MetricData)
deriving Repr, DecidableEq

/-- Translation of LocalLoggingFallback.flushBuffer: a no-op on an empty
buffer, otherwise the whole buffer is written to the log as one record
and the buffer is cleared.  The json.Marshal of a list of MetricData
cannot fail, so the error path of the Go code is unreachable. -/
def flushBuffer (l : LocalLoggingFallback) : LocalLoggingFallback :=
  if l.buffer = [] then l
  else { l with log := l.log ++ [l.buffer], buffer := [] }

/-- Translation of LocalLoggingFallback.HandleFailure: a no-op when
disabled; otherwise flush first when the buffer is at or above capacity,
then append the new point.  Always returns nil. -/
def HandleFailure (l : LocalLoggingFallback) (md : MetricData) :
    LocalLoggingFallback × Option String :=
  if !l.enabled then (l, none)
  else
    let l2 := if l.maxSize ≤ (l.buffer.length : Int) then flushBuffer l else l
    ({ l2 with buffer := l2.buffer ++ [md] }, none)

end Monitors

namespace Healthcheck

/-- Status constant StatusUp = "UP". -/
def statusUp : String := "UP"

/-- Status constant StatusDown = "DOWN". -/
def statusDown : String := "DOWN"

/-- Translation of healthcheck.Result; the Error field is the empty
string when the check returned no error. -/
structure Result where
  name : String
  status : String
  error : String
deriving Repr, DecidableEq

/-- Translation of healthcheck.AggregateResult; the Details map is
modelled as an association list updated with map semantics (upsert). -/
structure AggregateResult where
  status : String
  details : List (String × Result)
deriving Repr, DecidableEq

/-- One registered check, abstracted by its name and by the (status,
error) pair its Execute method returns under the ambient context. -/
structure Check where
  name : String
  execStatus : String
  execErr : Option String
deriving Repr, DecidableEq

/-- Map-style insertion into the Details association list: replace the
value at an existing key, else append the binding. -/
def upsert : List (String × Result) → String → Result → List (String × Result)
  | [], k, v => [(k, v)]
  | (k2, v2) :: rest, k, v =>
    if k2 = k then (k, v) :: rest else (k2, v2) :: upsert rest k v

/-- Loop of Checker.RunChecks over the registered checks: build a Result
per check, record it in Details under the check's name, and set the
aggregate status to DOWN when the check's status is DOWN. -/
def runChecksLoop (agg : AggregateResult) : List Check → AggregateResult
  | [] => agg
  | c :: rest =>
    let r : Result :=
      { name := c.name
        status := c.execStatus
        error := match c.execErr with | none => "" | some e => e }
    runChecksLoop
      { status := if c.execStatus = statusDown then statusDown else agg.status
        details := upsert agg.details c.name r } rest

/-- Translation of Checker.RunChecks: start from status UP with empty
details, return immediately on an empty check set, else run the loop. -/
def RunChecks (checks : List Check) : AggregateResult :=
  let aggregateResult : AggregateResult := { status := statusUp, details := [] }
  if checks = [] then aggregateResult else runChecksLoop aggregateResult checks

end Healthcheck

end HASystem

namespace HASystem

namespace Retry

/-- Under the scenario policy (randomizationFactor 0), the first
computed interval is exactly 200ms: the initial interval is multiplied
by 2 before the first sleep, and the jitter draw adds only r < 1ns,
which truncation discards. -/
lemma scenario_calc1 (r : ℚ) (h0 : 0 ≤ r) (h1 : r < 1) :
    calculateNextInterval 100000000 1 scenarioConfig r = 200000000 := by
  have hpre : preClampInterval 100000000 scenarioConfig r = 200000000 + r := by
    simp only [preClampInterval, scenarioConfig]
    push_cast
    ring
  unfold calculateNextInterval
  rw [hpre]
  have hmin : min ((200000000 : ℚ) + r) ((scenarioConfig.maxInterval : ℚ))
      = 200000000 + r := by
    apply min_eq_left
    simp only [scenarioConfig]
    push_cast
    linarith
  rw [hmin]
  unfold truncQ
  rw [if_pos (by linarith)]
  have hcast : ((200000000 : ℚ) + r) = ((200000000 : ℤ) : ℚ) + r := by norm_num
  rw [hcast, Int.floor_int_add, Int.floor_eq_zero_iff.mpr ⟨h0, h1⟩]
  norm_num

/-- Second computed interval of the scenario: exactly 400ms. -/
lemma scenario_calc2 (r : ℚ) (h0 : 0 ≤ r) (h1 : r < 1) :
    calculateNextInterval 200000000 2 scenarioConfig r = 400000000 := by
  have hpre : preClampInterval 200000000 scenarioConfig r = 400000000 + r := by
    simp only [preClampInterval, scenarioConfig]
    push_cast
    ring
  unfold calculateNextInterval
  rw [hpre]
  have hmin : min ((400000000 : ℚ) + r) ((scenarioConfig.maxInterval : ℚ))
      = 400000000 + r := by
    apply min_eq_left
    simp only [scenarioConfig]
    push_cast
    linarith
  rw [hmin]
  unfold truncQ
  rw [if_pos (by linarith)]
  have hcast : ((400000000 : ℚ) + r) = ((400000000 : ℤ) : ℚ) + r := by norm_num
  rw [hcast, Int.floor_int_add, Int.floor_eq_zero_iff.mpr ⟨h0, h1⟩]
  norm_num

end Retry

/-- C1: the claim's timing is false on the code.  For the scenario
policy {maxAttempts=3, initialInterval=100ms, maxInterval=1s,
multiplier=2.0, jitterFactor=0} and an operation failing twice then
succeeding, retry.Do performs 3 invocations and succeeds, but the waits
are 200ms and 400ms — not the claimed 100ms and 200ms — because Do calls
calculateNextInterval (which multiplies by the multiplier) before the
first sleep. -/
theorem retry_C1_counterexample :
    Retry.Do Retry.scenarioFn Retry.scenarioConfig (fun _ => 0)
      = (none, 3, [200000000, 400000000]) ∧
    Retry.DoWithContext Retry.scenarioFn Retry.scenarioConfig (fun _ => 0)
      (fun _ => false)
      = (.success, 3, [200000000, 400000000]) ∧
    ([200000000, 400000000] : List Int) ≠ [100000000, 200000000] := by
  have h1 := Retry.scenario_calc1 0 (by norm_num) (by norm_num)
  have h2 := Retry.scenario_calc2 0 (by norm_num) (by norm_num)
  simp only [Retry.scenarioConfig] at h1 h2
  refine ⟨?_, ?_, by decide⟩ <;>
    norm_num [Retry.Do, Retry.DoWithContext, Retry.doAux, Retry.doCtxAux,
      Retry.scenarioConfig, Retry.scenarioFn, Int.toNat, h1, h2]

end HASystem

namespace HASystem

namespace Retry

/-- Invocation count of the Do loop is bounded by the remaining fuel. -/
lemma doAux_count_le (fn : Int → Option String) (config : Config) (rs : Int → ℚ) :
    ∀ fuel (attempt ni : Int), (doAux fn config rs fuel attempt ni).2.1 ≤ fuel := by
  intro fuel
  induction fuel with
  | zero => intro attempt ni; simp [doAux]
  | succ f ih =>
    intro attempt ni
    cases hfn : fn attempt with
    | none => simp [doAux, hfn]
    | some e =>
      by_cases hf : f = 0
      · simp [doAux, hfn, hf]
      · have h := ih (attempt + 1) (calculateNextInterval ni attempt config (rs attempt))
        simp only [doAux, hfn, if_neg hf]
        omega

/-- Invocation count of the DoWithContext loop is bounded by the
remaining fuel. -/
lemma doCtxAux_count_le (fn : Int → Option String) (config : Config) (rs : Int → ℚ)
    (done : Nat → Bool) :
    ∀ fuel (attempt ni : Int) (t : Nat),
      (doCtxAux fn config rs done fuel attempt ni t).2.1 ≤ fuel := by
  intro fuel
  induction fuel with
  | zero => intro attempt ni t; simp [doCtxAux]
  | succ f ih =>
    intro attempt ni t
    by_cases hd0 : done t
    · simp [doCtxAux, hd0]
    · cases hfn : fn attempt with
      | none => simp [doCtxAux, hd0, hfn]
      | some e =>
        by_cases hf : f = 0
        · simp [doCtxAux, hd0, hfn, hf]
        · by_cases hd1 : done (t + 1)
          · simp [doCtxAux, hd0, hfn, hf, hd1]
          · have h := ih (attempt + 1)
              (calculateNextInterval ni attempt config (rs attempt)) (t + 2)
            simp only [doCtxAux, hd0, hfn, if_neg hf, hd1, Bool.false_eq_true,
              if_false]
            omega

end Retry

/-- C3: for every policy with maxAttempts ≥ 1 and every operation,
retry.Do and retry.DoWithContext invoke the operation at most
maxAttempts times, and invoke it exactly once — returning success
immediately with no backoff wait — when the first invocation
succeeds. -/
theorem retry_C3 (config : Retry.Config) (fn : Int → Option String) (rs : Int → ℚ)
    (done : Nat → Bool) (hmax : 1 ≤ config.maxAttempts) :
    ((Retry.Do fn config rs).2.1 : Int) ≤ config.maxAttempts ∧
    ((Retry.DoWithContext fn config rs done).2.1 : Int) ≤ config.maxAttempts ∧
    (fn 1 = none →
      Retry.Do fn config rs = (none, 1, []) ∧
      (done 0 = false → Retry.DoWithContext fn config rs done = (.success, 1, []))) := by
  have h1 := Retry.doAux_count_le fn config rs config.maxAttempts.toNat 1
    config.initialInterval
  have h2 := Retry.doCtxAux_count_le fn config rs done config.maxAttempts.toNat 1
    config.initialInterval 0
  refine ⟨by unfold Retry.Do; omega, by unfold Retry.DoWithContext; omega, ?_⟩
  intro hfn
  obtain ⟨k, hk⟩ : ∃ k, config.maxAttempts.toNat = k + 1 :=
    ⟨config.maxAttempts.toNat - 1, by omega⟩
  constructor
  · unfold Retry.Do
    rw [hk]
    simp [Retry.doAux, hfn]
  · intro hd
    unfold Retry.DoWithContext
    rw [hk]
    simp [Retry.doCtxAux, hfn, hd]

/-- Witness for retry_C3 at a concrete policy and operation. -/
theorem retry_C3_witness :
    Retry.Do (fun _ => none) Retry.DefaultConfig (fun _ => 0) = (none, 1, []) :=
  ((retry_C3 Retry.DefaultConfig (fun _ => none) (fun _ => 0) (fun _ => false)
    (by decide)).2.2 rfl).1

/-- C10: a config with MaxAttempts ≤ 0 makes both executors return nil
("success") without invoking the operation at all: the attempt loop body
is never entered. -/
theorem retry_C10 (config : Retry.Config) (fn : Int → Option String) (rs : Int → ℚ)
    (done : Nat → Bool) (hmax : config.maxAttempts ≤ 0) (_hd : done 0 = false) :
    Retry.Do fn config rs = (none, 0, []) ∧
    Retry.DoWithContext fn config rs done = (.success, 0, []) := by
  have ht : config.maxAttempts.toNat = 0 := by omega
  constructor
  · unfold Retry.Do
    rw [ht]
    simp [Retry.doAux]
  · unfold Retry.DoWithContext
    rw [ht]
    simp [Retry.doCtxAux]

/-- Witness for retry_C10: maxAttempts = 0 with an always-failing
operation still yields nil and zero invocations. -/
theorem retry_C10_witness :
    Retry.Do (fun _ => some "boom") (Retry.Config.mk 0 100 1000 2 (1/2)) (fun _ => 0)
      = (none, 0, []) :=
  (retry_C10 (Retry.Config.mk 0 100 1000 2 (1/2)) (fun _ => some "boom") (fun _ => 0)
    (fun _ => false) (by decide) rfl).1

end HASystem

namespace HASystem

/-- C1 (amended): for the scenario policy and an operation failing twice
then succeeding, retry.Do and retry.DoWithContext (never-cancelled
signal) perform exactly 3 invocations and return success, with waits of
exactly 200ms and then 400ms between the invocations (the code
multiplies the current interval by the multiplier before the first
sleep; with jitterFactor 0 the draw adds r < 1ns, which the
time.Duration truncation discards). -/
theorem retry_C1 (rs : Int → ℚ) (hrs : ∀ n, 0 ≤ rs n ∧ rs n < 1) :
    Retry.Do Retry.scenarioFn Retry.scenarioConfig rs
      = (none, 3, [200000000, 400000000]) ∧
    Retry.DoWithContext Retry.scenarioFn Retry.scenarioConfig rs (fun _ => false)
      = (.success, 3, [200000000, 400000000]) := by
  have h1 := Retry.scenario_calc1 (rs 1) (hrs 1).1 (hrs 1).2
  have h2 := Retry.scenario_calc2 (rs 2) (hrs 2).1 (hrs 2).2
  simp only [Retry.scenarioConfig] at h1 h2
  constructor <;>
    norm_num [Retry.Do, Retry.DoWithContext, Retry.doAux, Retry.doCtxAux,
      Retry.scenarioConfig, Retry.scenarioFn, Int.toNat, h1, h2]

/-- Witness for retry_C1 with the constant draw 1/2. -/
theorem retry_C1_witness :
    Retry.Do Retry.scenarioFn Retry.scenarioConfig (fun _ => 1/2)
      = (none, 3, [200000000, 400000000]) :=
  (retry_C1 (fun _ => 1/2) (fun _ => ⟨one_half_pos.le, one_half_lt_one⟩)).1

namespace Retry

/-- When every attempt in the window fails, the Do loop returns the last
error wrapped with the exhaustion marker. -/
lemma doAux_all_fail (fn : Int → Option String) (config : Config) (rs : Int → ℚ) :
    ∀ (fuel : Nat) (attempt ni : Int) (e : String), 1 ≤ fuel →
      (∀ i : Int, attempt ≤ i → i < attempt + (fuel : Int) → fn i ≠ none) →
      fn (attempt + (fuel : Int) - 1) = some e →
      (doAux fn config rs fuel attempt ni).1
        = some (e ++ ": " ++ errMaxRetriesReached) := by
  intro fuel
  induction fuel with
  | zero => intro attempt ni e hf; omega
  | succ f ih =>
    intro attempt ni e _hf hall hlast
    by_cases hf0 : f = 0
    · subst hf0
      have hlast2 : fn attempt = some e := by
        rwa [show attempt + ((1 : Nat) : Int) - 1 = attempt by omega] at hlast
      simp [doAux, hlast2]
    · have hfn : fn attempt ≠ none := hall attempt le_rfl (by omega)
      obtain ⟨e2, he2⟩ := Option.ne_none_iff_exists'.mp hfn
      simp only [doAux, he2, if_neg hf0]
      apply ih
      · omega
      · intro i h1 h2
        exact hall i (by omega) (by push_cast at h2 ⊢; omega)
      · rw [show attempt + 1 + (f : Int) - 1
            = attempt + (((f + 1 : Nat)) : Int) - 1 by push_cast; ring]
        exact hlast

/-- Context version of doAux_all_fail, under a never-firing signal. -/
lemma doCtxAux_all_fail (fn : Int → Option String) (config : Config) (rs : Int → ℚ)
    (done : Nat → Bool) (hdone : ∀ t, done t = false) :
    ∀ (fuel : Nat) (attempt ni : Int) (t : Nat) (e : String), 1 ≤ fuel →
      (∀ i : Int, attempt ≤ i → i < attempt + (fuel : Int) → fn i ≠ none) →
      fn (attempt + (fuel : Int) - 1) = some e →
      (doCtxAux fn config rs done fuel attempt ni t).1
        = .exhausted (e ++ ": " ++ errMaxRetriesReached) := by
  intro fuel
  induction fuel with
  | zero => intro attempt ni t e hf; omega
  | succ f ih =>
    intro attempt ni t e _hf hall hlast
    by_cases hf0 : f = 0
    · subst hf0
      have hlast2 : fn attempt = some e := by
        rwa [show attempt + ((1 : Nat) : Int) - 1 = attempt by omega] at hlast
      simp [doCtxAux, hdone t, hlast2]
    · have hfn : fn attempt ≠ none := hall attempt le_rfl (by omega)
      obtain ⟨e2, he2⟩ := Option.ne_none_iff_exists'.mp hfn
      simp only [doCtxAux, hdone t, hdone (t + 1), Bool.false_eq_true, if_false,
        he2, if_neg hf0]
      apply ih
      · omega
      · intro i h1 h2
        exact hall i (by omega) (by push_cast at h2 ⊢; omega)
      · rw [show attempt + 1 + (f : Int) - 1
            = attempt + (((f + 1 : Nat)) : Int) - 1 by push_cast; ring]
        exact hlast

end Retry

/-- C9: when every allowed attempt fails, retry.Do and
retry.DoWithContext return an error whose message is the last operation
error followed by ": " and the "max retries reached" marker
(ErrMaxRetriesReached), distinguishing exhaustion from a plain
failure. -/
theorem retry_C9 (config : Retry.Config) (fn : Int → Option String) (rs : Int → ℚ)
    (done : Nat → Bool) (e : String) (hmax : 1 ≤ config.maxAttempts)
    (hall : ∀ i : Int, 1 ≤ i → i ≤ config.maxAttempts → fn i ≠ none)
    (hlast : fn config.maxAttempts = some e) (hdone : ∀ t, done t = false) :
    (Retry.Do fn config rs).1 = some (e ++ ": " ++ Retry.errMaxRetriesReached) ∧
    (Retry.DoWithContext fn config rs done).1
      = .exhausted (e ++ ": " ++ Retry.errMaxRetriesReached) := by
  have hcast : ((config.maxAttempts.toNat : Int)) = config.maxAttempts := by omega
  have hall2 : ∀ i : Int, 1 ≤ i → i < 1 + config.maxAttempts.toNat → fn i ≠ none := by
    intro i h1 h2
    exact hall i h1 (by omega)
  have hlast2 : fn (1 + (config.maxAttempts.toNat : Int) - 1) = some e := by
    rwa [show 1 + (config.maxAttempts.toNat : Int) - 1 = config.maxAttempts by omega]
  constructor
  · exact Retry.doAux_all_fail fn config rs config.maxAttempts.toNat 1
      config.initialInterval e (by omega) hall2 hlast2
  · exact Retry.doCtxAux_all_fail fn config rs done hdone config.maxAttempts.toNat 1
      config.initialInterval 0 e (by omega) hall2 hlast2

/-- Witness for retry_C9: two always-failing attempts produce the
wrapped exhaustion error. -/
theorem retry_C9_witness :
    (Retry.Do (fun _ => some "err") (Retry.Config.mk 2 100 1000 2 0) (fun _ => 0)).1
      = some ("err" ++ ": " ++ Retry.errMaxRetriesReached) :=
  (retry_C9 (Retry.Config.mk 2 100 1000 2 0) (fun _ => some "err") (fun _ => 0)
    (fun _ => false) "err" (by decide) (fun i _ _ => by simp) rfl
    (fun t => rfl)).1

/-- C7: the claim is false on the code — no constructor validates a
retry.Config.  A config with multiplier ≤ 1 and jitterFactor outside
[0,1] is accepted as-is and retry.Do runs under it, invoking the
operation; no configuration error is ever produced. -/
theorem retry_C7_counterexample :
    (Retry.Config.mk 1 100 1000 (1/2) 2).multiplier ≤ 1 ∧
    ¬((Retry.Config.mk 1 100 1000 (1/2) 2).randomizationFactor ≤ 1) ∧
    (Retry.Do (fun _ => none) (Retry.Config.mk 1 100 1000 (1/2) 2)
      (fun _ => 0)).2.1 = 1 := by
  refine ⟨by norm_num, by norm_num, ?_⟩
  simp [Retry.Do, Retry.doAux, Int.toNat]

namespace Retry

/-- One unfolding of the Do loop always performs an invocation when fuel
remains. -/
lemma doAux_count_pos (fn : Int → Option String) (config : Config) (rs : Int → ℚ)
    (f : Nat) (attempt ni : Int) :
    1 ≤ (doAux fn config rs (f + 1) attempt ni).2.1 := by
  cases hfn : fn attempt with
  | none => simp [doAux, hfn]
  | some e =>
    by_cases hf : f = 0
    · simp [doAux, hfn, hf]
    · simp only [doAux, hfn, if_neg hf]
      omega

/-- Context version of doAux_count_pos, when the signal has not fired at
the loop entry. -/
lemma doCtxAux_count_pos (fn : Int → Option String) (config : Config) (rs : Int → ℚ)
    (done : Nat → Bool) (f : Nat) (attempt ni : Int) (t : Nat)
    (hd : done t = false) :
    1 ≤ (doCtxAux fn config rs done (f + 1) attempt ni t).2.1 := by
  cases hfn : fn attempt with
  | none => simp [doCtxAux, hfn, hd]
  | some e =>
    by_cases hf : f = 0
    · simp [doCtxAux, hfn, hd, hf]
    · by_cases hd1 : done (t + 1)
      · simp [doCtxAux, hfn, hd, hf, hd1]
      · simp only [doCtxAux, hd, Bool.false_eq_true, if_false, hfn, if_neg hf,
          hd1]
        omega

end Retry

/-- C7 (amended): the retry package performs no configuration
validation.  Every Config value — including one with multiplier ≤ 1,
jitterFactor outside [0,1] or non-positive intervals — is accepted, and
whenever maxAttempts ≥ 1 both executors run and invoke the operation at
least once under it; no configuration error path exists. -/
theorem retry_C7 (config : Retry.Config) (fn : Int → Option String) (rs : Int → ℚ)
    (done : Nat → Bool) (hmax : 1 ≤ config.maxAttempts) (hd : done 0 = false) :
    1 ≤ (Retry.Do fn config rs).2.1 ∧
    1 ≤ (Retry.DoWithContext fn config rs done).2.1 := by
  obtain ⟨k, hk⟩ : ∃ k, config.maxAttempts.toNat = k + 1 :=
    ⟨config.maxAttempts.toNat - 1, by omega⟩
  constructor
  · unfold Retry.Do
    rw [hk]
    exact Retry.doAux_count_pos fn config rs k 1 config.initialInterval
  · unfold Retry.DoWithContext
    rw [hk]
    exact Retry.doCtxAux_count_pos fn config rs done k 1 config.initialInterval 0 hd

/-- Witness for retry_C7: an invalid policy (multiplier 1/2 ≤ 1, jitter
2 outside [0,1]) still executes the operation. -/
theorem retry_C7_witness :
    1 ≤ (Retry.Do (fun _ => some "x") (Retry.Config.mk 1 100 1000 (1/2) 2)
      (fun _ => 0)).2.1 :=
  (retry_C7 (Retry.Config.mk 1 100 1000 (1/2) 2) (fun _ => some "x") (fun _ => 0)
    (fun _ => false) (by decide) rfl).1

end HASystem

namespace HASystem

namespace Retry

/-- When the signal first fires at the wait select after attempt
(attempt + m) — all earlier observations false, all attempts up to that
point failing, and at least two units of fuel beyond m — the loop
returns the context error with exactly m + 1 invocations performed and
no attempt after the interrupted wait. -/
lemma doCtxAux_cancel_wait (fn : Int → Option String) (config : Config) (rs : Int → ℚ)
    (done : Nat → Bool) :
    ∀ (m fuel : Nat) (attempt ni : Int) (t : Nat),
      m + 1 < fuel →
      (∀ s, s ≤ 2 * m → done (t + s) = false) →
      done (t + (2 * m + 1)) = true →
      (∀ i : Int, attempt ≤ i → i ≤ attempt + (m : Int) → fn i ≠ none) →
      (doCtxAux fn config rs done fuel attempt ni t).1 = .cancelled ∧
      (doCtxAux fn config rs done fuel attempt ni t).2.1 = m + 1 := by
  intro m
  induction m with
  | zero =>
    intro fuel attempt ni t hfuel hbefore hat hfail
    obtain ⟨f, rfl⟩ : ∃ f, fuel = f + 1 := ⟨fuel - 1, by omega⟩
    have hd0 : done t = false := by simpa using hbefore 0 (by omega)
    have hfn : fn attempt ≠ none := hfail attempt le_rfl (by omega)
    obtain ⟨e, he⟩ := Option.ne_none_iff_exists'.mp hfn
    have hf : f ≠ 0 := by omega
    have hd1 : done (t + 1) = true := by simpa using hat
    simp [doCtxAux, hd0, he, hf, hd1]
  | succ m ih =>
    intro fuel attempt ni t hfuel hbefore hat hfail
    obtain ⟨f, rfl⟩ : ∃ f, fuel = f + 1 := ⟨fuel - 1, by omega⟩
    have hd0 : done t = false := by simpa using hbefore 0 (by omega)
    have hfn : fn attempt ≠ none := hfail attempt le_rfl (by omega)
    obtain ⟨e, he⟩ := Option.ne_none_iff_exists'.mp hfn
    have hf : f ≠ 0 := by omega
    have hd1 : done (t + 1) = false := by simpa using hbefore 1 (by omega)
    have hrec := ih f (attempt + 1)
      (calculateNextInterval ni attempt config (rs attempt)) (t + 2)
      (by omega)
      (by
        intro s hs
        have h := hbefore (s + 2) (by omega)
        rwa [show t + (s + 2) = t + 2 + s by omega] at h)
      (by
        have h := hat
        rwa [show t + (2 * (m + 1) + 1) = t + 2 + (2 * m + 1) by omega] at h)
      (by
        intro i h1 h2
        refine hfail i (by omega) ?_
        push_cast at h2 ⊢
        omega)
    simp only [doCtxAux, hd0, Bool.false_eq_true, if_false, he, if_neg hf, hd1]
    exact ⟨hrec.1, by omega⟩

/-- When the signal is already fired at the pre-attempt check of attempt
(attempt + m) — all earlier observations false and the m preceding
attempts failing — the loop returns the context error with exactly m
invocations performed (attempt attempt+m is never invoked). -/
lemma doCtxAux_cancel_check (fn : Int → Option String) (config : Config) (rs : Int → ℚ)
    (done : Nat → Bool) :
    ∀ (m fuel : Nat) (attempt ni : Int) (t : Nat),
      m < fuel →
      (∀ s, s < 2 * m → done (t + s) = false) →
      done (t + 2 * m) = true →
      (∀ i : Int, attempt ≤ i → i < attempt + (m : Int) → fn i ≠ none) →
      (doCtxAux fn config rs done fuel attempt ni t).1 = .cancelled ∧
      (doCtxAux fn config rs done fuel attempt ni t).2.1 = m := by
  intro m
  induction m with
  | zero =>
    intro fuel attempt ni t hfuel hbefore hat hfail
    obtain ⟨f, rfl⟩ : ∃ f, fuel = f + 1 := ⟨fuel - 1, by omega⟩
    have hd0 : done t = true := by simpa using hat
    simp [doCtxAux, hd0]
  | succ m ih =>
    intro fuel attempt ni t hfuel hbefore hat hfail
    obtain ⟨f, rfl⟩ : ∃ f, fuel = f + 1 := ⟨fuel - 1, by omega⟩
    have hd0 : done t = false := by simpa using hbefore 0 (by omega)
    have hfn : fn attempt ≠ none := hfail attempt le_rfl (by push_cast; omega)
    obtain ⟨e, he⟩ := Option.ne_none_iff_exists'.mp hfn
    have hf : f ≠ 0 := by omega
    have hd1 : done (t + 1) = false := by simpa using hbefore 1 (by omega)
    have hrec := ih f (attempt + 1)
      (calculateNextInterval ni attempt config (rs attempt)) (t + 2)
      (by omega)
      (by
        intro s hs
        have h := hbefore (s + 2) (by omega)
        rwa [show t + (s + 2) = t + 2 + s by omega] at h)
      (by
        have h := hat
        rwa [show t + 2 * (m + 1) = t + 2 + 2 * m by omega] at h)
      (by
        intro i h1 h2
        refine hfail i (by omega) ?_
        push_cast at h2 ⊢
        omega)
    simp only [doCtxAux, hd0, Bool.false_eq_true, if_false, he, if_neg hf, hd1]
    exact ⟨hrec.1, by omega⟩

end Retry

/-- C8: with a signal that first fires at the wait select after attempt
k (k < maxAttempts, all attempts through k failing), retry.DoWithContext
returns the context's Cancelled error having performed exactly k
invocations — strictly fewer than maxAttempts — and makes no further
invocation afterward; and with a signal already fired at the pre-attempt
check of attempt j (2 ≤ j ≤ maxAttempts), it aborts immediately with the
Cancelled error after exactly j - 1 invocations, never invoking attempt
j. -/
theorem retry_C8 (config : Retry.Config) (fn : Int → Option String) (rs : Int → ℚ)
    (k : Nat) (hk : 1 ≤ k) (hkm : (k : Int) < config.maxAttempts)
    (hfail : ∀ i : Int, 1 ≤ i → i ≤ (k : Int) → fn i ≠ none) :
    ((Retry.DoWithContext fn config rs (fun t => decide (2 * k - 1 ≤ t))).1
        = .cancelled ∧
      (Retry.DoWithContext fn config rs (fun t => decide (2 * k - 1 ≤ t))).2.1 = k ∧
      k < config.maxAttempts.toNat) ∧
    (∀ j : Nat, 2 ≤ j → (j : Int) ≤ config.maxAttempts →
      (∀ i : Int, 1 ≤ i → i < (j : Int) → fn i ≠ none) →
      (Retry.DoWithContext fn config rs (fun t => decide (2 * (j - 1) ≤ t))).1
          = .cancelled ∧
      (Retry.DoWithContext fn config rs (fun t => decide (2 * (j - 1) ≤ t))).2.1
          = j - 1) := by
  constructor
  · have h := Retry.doCtxAux_cancel_wait fn config rs
      (fun t => decide (2 * k - 1 ≤ t)) (k - 1) config.maxAttempts.toNat 1
      config.initialInterval 0
      (by omega)
      (by
        intro s hs
        simp only [decide_eq_false_iff_not]
        omega)
      (by
        simp only [decide_eq_true_eq]
        omega)
      (by
        intro i h1 h2
        exact hfail i h1 (by omega))
    refine ⟨h.1, ?_, by omega⟩
    rw [Retry.DoWithContext, h.2]
    omega
  · intro j hj hjm hfailj
    have h := Retry.doCtxAux_cancel_check fn config rs
      (fun t => decide (2 * (j - 1) ≤ t)) (j - 1) config.maxAttempts.toNat 1
      config.initialInterval 0
      (by omega)
      (by
        intro s hs
        simp only [decide_eq_false_iff_not]
        omega)
      (by
        simp only [decide_eq_true_eq]
        omega)
      (by
        intro i h1 h2
        exact hfailj i h1 (by omega))
    exact ⟨h.1, by rw [Retry.DoWithContext, h.2]⟩

/-- Witness for retry_C8: a signal firing during the first backoff wait
cancels after exactly one of the three allowed invocations. -/
theorem retry_C8_witness :
    (Retry.DoWithContext (fun _ => some "e") (Retry.Config.mk 3 100 1000 2 0)
        (fun _ => 0) (fun t => decide (2 * 1 - 1 ≤ t))).1 = .cancelled ∧
    (Retry.DoWithContext (fun _ => some "e") (Retry.Config.mk 3 100 1000 2 0)
        (fun _ => 0) (fun t => decide (2 * 1 - 1 ≤ t))).2.1 = 1 := by
  have h := retry_C8 (Retry.Config.mk 3 100 1000 2 0) (fun _ => some "e")
    (fun _ => 0) 1 (by decide) (by decide) (fun i _ _ => by simp)
  exact ⟨h.1.1, h.1.2.1⟩

end HASystem

namespace HASystem

namespace Retry

/-- Band of the pre-clamp jitter draw: it lies at or above
c * (1 - jitterFactor) and strictly below c * (1 + jitterFactor) + 1,
where c is the previous interval times the multiplier.  The extra +1
comes from the "+ 1" in the Go random-range width. -/
lemma preClampInterval_band (config : Config) (cur : Int) (r : ℚ)
    (hmul : 0 ≤ config.multiplier) (hj0 : 0 ≤ config.randomizationFactor)
    (hcur : 0 ≤ cur) (hr0 : 0 ≤ r) (hr1 : r < 1) :
    ((cur : ℚ) * config.multiplier) * (1 - config.randomizationFactor)
        ≤ preClampInterval cur config r ∧
    preClampInterval cur config r
        < ((cur : ℚ) * config.multiplier) * (1 + config.randomizationFactor) + 1 := by
  have hc : (0 : ℚ) ≤ (cur : ℚ) * config.multiplier :=
    mul_nonneg (by exact_mod_cast hcur) hmul
  have hd : (0 : ℚ) ≤ config.randomizationFactor * ((cur : ℚ) * config.multiplier) :=
    mul_nonneg hj0 hc
  have h2d : (0 : ℚ)
      < 2 * (config.randomizationFactor * ((cur : ℚ) * config.multiplier)) + 1 := by
    linarith
  have hprod : 0 ≤ r
      * (2 * (config.randomizationFactor * ((cur : ℚ) * config.multiplier)) + 1) :=
    mul_nonneg hr0 h2d.le
  have hprod2 := mul_pos (by linarith : (0 : ℚ) < 1 - r) h2d
  simp only [preClampInterval]
  constructor
  · nlinarith [hprod]
  · nlinarith [hprod2]

/-- The computed interval is clamped into [0, maxInterval] whenever the
configuration fields in play are non-negative and the draw lies in
[0, 1). -/
lemma calculateNextInterval_bounds (config : Config) (cur a : Int) (r : ℚ)
    (hmul : 0 ≤ config.multiplier) (hj0 : 0 ≤ config.randomizationFactor)
    (hj1 : config.randomizationFactor ≤ 1) (hmax : 0 ≤ config.maxInterval)
    (hcur : 0 ≤ cur) (hr0 : 0 ≤ r) (hr1 : r < 1) :
    0 ≤ calculateNextInterval cur a config r ∧
      calculateNextInterval cur a config r ≤ config.maxInterval := by
  have hband := preClampInterval_band config cur r hmul hj0 hcur hr0 hr1
  have hc : (0 : ℚ) ≤ (cur : ℚ) * config.multiplier :=
    mul_nonneg (by exact_mod_cast hcur) hmul
  have hlow : (0 : ℚ)
      ≤ ((cur : ℚ) * config.multiplier) * (1 - config.randomizationFactor) :=
    mul_nonneg hc (by linarith)
  have hpre0 : 0 ≤ preClampInterval cur config r := le_trans hlow hband.1
  have hmin0 : (0 : ℚ)
      ≤ min (preClampInterval cur config r) ((config.maxInterval : ℚ)) :=
    le_min hpre0 (by exact_mod_cast hmax)
  unfold calculateNextInterval truncQ
  rw [if_pos hmin0]
  refine ⟨Int.floor_nonneg.mpr hmin0, ?_⟩
  calc ⌊min (preClampInterval cur config r) ((config.maxInterval : ℚ))⌋
      ≤ ⌊((config.maxInterval : ℚ))⌋ := Int.floor_mono (min_le_right _ _)
    _ = config.maxInterval := Int.floor_intCast _

/-- Every completed sleep recorded by the Do loop lies in
[0, maxInterval]. -/
lemma doAux_waits (fn : Int → Option String) (config : Config) (rs : Int → ℚ)
    (hmul : 0 ≤ config.multiplier) (hj0 : 0 ≤ config.randomizationFactor)
    (hj1 : config.randomizationFactor ≤ 1) (hmax : 0 ≤ config.maxInterval)
    (hrs : ∀ k : Int, 0 ≤ rs k ∧ rs k < 1) :
    ∀ (fuel : Nat) (attempt ni : Int), 0 ≤ ni →
      ∀ w ∈ (doAux fn config rs fuel attempt ni).2.2,
        0 ≤ w ∧ w ≤ config.maxInterval := by
  intro fuel
  induction fuel with
  | zero => intro attempt ni hni w hw; simp [doAux] at hw
  | succ f ih =>
    intro attempt ni hni w hw
    cases hfn : fn attempt with
    | none => simp [doAux, hfn] at hw
    | some e =>
      by_cases hf : f = 0
      · simp [doAux, hfn, hf] at hw
      · have hb := calculateNextInterval_bounds config ni attempt (rs attempt)
          hmul hj0 hj1 hmax hni (hrs attempt).1 (hrs attempt).2
        simp only [doAux, hfn, if_neg hf] at hw
        rcases List.mem_cons.mp hw with h | h
        · exact h ▸ hb
        · exact ih (attempt + 1) _ hb.1 w h

/-- Every completed wait recorded by the DoWithContext loop lies in
[0, maxInterval]. -/
lemma doCtxAux_waits (fn : Int → Option String) (config : Config) (rs : Int → ℚ)
    (done : Nat → Bool)
    (hmul : 0 ≤ config.multiplier) (hj0 : 0 ≤ config.randomizationFactor)
    (hj1 : config.randomizationFactor ≤ 1) (hmax : 0 ≤ config.maxInterval)
    (hrs : ∀ k : Int, 0 ≤ rs k ∧ rs k < 1) :
    ∀ (fuel : Nat) (attempt ni : Int) (t : Nat), 0 ≤ ni →
      ∀ w ∈ (doCtxAux fn config rs done fuel attempt ni t).2.2,
        0 ≤ w ∧ w ≤ config.maxInterval := by
  intro fuel
  induction fuel with
  | zero => intro attempt ni t hni w hw; simp [doCtxAux] at hw
  | succ f ih =>
    intro attempt ni t hni w hw
    by_cases hd0 : done t
    · simp [doCtxAux, hd0] at hw
    · cases hfn : fn attempt with
      | none => simp [doCtxAux, hd0, hfn] at hw
      | some e =>
        by_cases hf : f = 0
        · simp [doCtxAux, hd0, hfn, hf] at hw
        · by_cases hd1 : done (t + 1)
          · simp [doCtxAux, hd0, hfn, hf, hd1] at hw
          · have hb := calculateNextInterval_bounds config ni attempt (rs attempt)
              hmul hj0 hj1 hmax hni (hrs attempt).1 (hrs attempt).2
            simp only [doCtxAux, hd0, Bool.false_eq_true, if_false, hfn,
              if_neg hf, hd1] at hw
            rcases List.mem_cons.mp hw with h | h
            · exact h ▸ hb
            · exact ih (attempt + 1) _ (t + 2) hb.1 w h

end Retry

/-- C2: the claim's band is false on the code.  With policy
{maxAttempts=2, initialInterval=101ns, maxInterval=1s, multiplier=5/2,
jitterFactor=0} — multiplier > 1 and jitterFactor in [0,1] — and draw
9/10, the single backoff interval computed by retry.Do is 253ns, but the
±jitterFactor band around the un-jittered exponential value
initialInterval * multiplier = 252.5ns is the single point 252.5ns: the
draw range's "+ 1" pushes the interval above the band. -/
theorem retry_C2_counterexample :
    (Retry.Do (fun _ => some "e") (Retry.Config.mk 2 101 1000000000 (5/2) 0)
        (fun _ => 9/10)).2.2 = [253] ∧
    (1 : ℚ) < (Retry.Config.mk 2 101 1000000000 (5/2) 0).multiplier ∧
    (0 : ℚ) ≤ (Retry.Config.mk 2 101 1000000000 (5/2) 0).randomizationFactor ∧
    (Retry.Config.mk 2 101 1000000000 (5/2) 0).randomizationFactor ≤ 1 ∧
    ¬(((253 : ℚ))
        ≤ (((Retry.Config.mk 2 101 1000000000 (5/2) 0).initialInterval : ℚ)
            * (Retry.Config.mk 2 101 1000000000 (5/2) 0).multiplier)
          * (1 + (Retry.Config.mk 2 101 1000000000 (5/2) 0).randomizationFactor)) := by
  refine ⟨?_, by norm_num, by norm_num, by norm_num, by push_cast; norm_num⟩
  have hpre : Retry.preClampInterval 101 (Retry.Config.mk 2 101 1000000000 (5/2) 0)
      (9/10) = 2534/10 := by
    simp only [Retry.preClampInterval]
    push_cast
    norm_num
  have hcalc : Retry.calculateNextInterval 101 1
      (Retry.Config.mk 2 101 1000000000 (5/2) 0) (9/10) = 253 := by
    unfold Retry.calculateNextInterval
    rw [hpre]
    rw [min_eq_left (by push_cast; norm_num)]
    unfold Retry.truncQ
    rw [if_pos (by norm_num)]
    norm_num
  norm_num [Retry.Do, Retry.doAux, Int.toNat, hcalc]

/-- C2 (amended): every interval computed during a retry.Do or
retry.DoWithContext run satisfies 0 ≤ interval ≤ maxInterval; the
pre-clamp jitter draw is applied to previousInterval * multiplier (with
no min against maxInterval before the jitter, and with the previous
jittered-and-clamped interval — not the pure exponential
initialInterval * multiplier^k — as base), and it lies in the half-open
band [c*(1-jitterFactor), c*(1+jitterFactor) + 1) around that base c,
the extra 1ns coming from the Go random-range width; clamping to
maxInterval happens only after the draw. -/
theorem retry_C2 (config : Retry.Config) (fn : Int → Option String) (rs : Int → ℚ)
    (done : Nat → Bool) (cur a : Int) (r : ℚ)
    (hmul : 1 < config.multiplier) (hj0 : 0 ≤ config.randomizationFactor)
    (hj1 : config.randomizationFactor ≤ 1) (hmax : 0 ≤ config.maxInterval)
    (hinit : 0 ≤ config.initialInterval) (hcur : 0 ≤ cur) (hr0 : 0 ≤ r) (hr1 : r < 1)
    (hrs : ∀ k : Int, 0 ≤ rs k ∧ rs k < 1) :
    (0 ≤ Retry.calculateNextInterval cur a config r ∧
      Retry.calculateNextInterval cur a config r ≤ config.maxInterval) ∧
    (((cur : ℚ) * config.multiplier) * (1 - config.randomizationFactor)
        ≤ Retry.preClampInterval cur config r ∧
      Retry.preClampInterval cur config r
        < ((cur : ℚ) * config.multiplier) * (1 + config.randomizationFactor) + 1) ∧
    (∀ w ∈ (Retry.Do fn config rs).2.2, 0 ≤ w ∧ w ≤ config.maxInterval) ∧
    (∀ w ∈ (Retry.DoWithContext fn config rs done).2.2,
      0 ≤ w ∧ w ≤ config.maxInterval) := by
  have hmul0 : 0 ≤ config.multiplier := by linarith
  refine ⟨Retry.calculateNextInterval_bounds config cur a r hmul0 hj0 hj1 hmax hcur
      hr0 hr1,
    Retry.preClampInterval_band config cur r hmul0 hj0 hcur hr0 hr1, ?_, ?_⟩
  · exact fun w hw => Retry.doAux_waits fn config rs hmul0 hj0 hj1 hmax hrs
      config.maxAttempts.toNat 1 config.initialInterval hinit w hw
  · exact fun w hw => Retry.doCtxAux_waits fn config rs done hmul0 hj0 hj1 hmax hrs
      config.maxAttempts.toNat 1 config.initialInterval 0 hinit w hw

/-- Witness for retry_C2 at the default policy values with constant
draw 1/2: the interval computed from a 100ns current interval is clamped
into [0, maxInterval]. -/
theorem retry_C2_witness :
    0 ≤ Retry.calculateNextInterval 100 1
        (Retry.Config.mk 3 100000000 10000000000 2 (1/2)) (1/2) ∧
    Retry.calculateNextInterval 100 1
        (Retry.Config.mk 3 100000000 10000000000 2 (1/2)) (1/2)
      ≤ (Retry.Config.mk 3 100000000 10000000000 2 (1/2)).maxInterval :=
  (retry_C2 (Retry.Config.mk 3 100000000 10000000000 2 (1/2)) (fun _ => some "e")
    (fun _ => 1/2) (fun _ => false) 100 1 (1/2) one_lt_two one_half_pos.le
    one_half_lt_one.le (by decide) (by decide) (by decide) one_half_pos.le
    one_half_lt_one (fun _ => ⟨one_half_pos.le, one_half_lt_one⟩)).1

end HASystem

namespace HASystem

namespace Monitors

/-- A write step taken in the Degraded state never resurrects the
facade: its resulting isHealthy is always false. -/
lemma writeStep_degraded_stays (hf fe p : Bool) :
    (writeStep false hf fe p).isHealthy = false := by
  cases h : hf && fe <;> simp [writeStep, h]

end Monitors

/-- C4: MonitorWithFallback starts Healthy; a failing primary write
flips the state to Degraded; while Degraded, Counter / Gauge / Histogram
never invoke the primary backend and take the fallback path (delegating
to the strategy when one is configured and enabled); when the periodic
probe interval is zero or negative no probe ticker is started, and
without probe events the state never returns from Degraded to Healthy —
a probe reporting healthy is the only Degraded-to-Healthy transition. -/
theorem monitors_C4 (pc : Int) (hf fe pOk : Bool)
    (events : List Monitors.FacadeEvent) (e : Monitors.FacadeEvent) (s0 : Bool) :
    (Monitors.NewMonitorWithFallback pc).isHealthy = true ∧
    ((Monitors.Counter true hf fe false).isHealthy = false ∧
      (Monitors.Gauge true hf fe false).isHealthy = false ∧
      (Monitors.Histogram true hf fe false).isHealthy = false) ∧
    ((Monitors.Counter false hf fe pOk).primaryInvoked = false ∧
      (Monitors.Gauge false hf fe pOk).primaryInvoked = false ∧
      (Monitors.Histogram false hf fe pOk).primaryInvoked = false) ∧
    (hf = true → fe = true →
      (Monitors.Counter false hf fe pOk).result = .fallbackHandled ∧
      (Monitors.Gauge false hf fe pOk).result = .fallbackHandled ∧
      (Monitors.Histogram false hf fe pOk).result = .fallbackHandled) ∧
    (pc ≤ 0 → (Monitors.NewMonitorWithFallback pc).tickerStarted = false) ∧
    ((∀ ev ∈ events, ∀ b, ev ≠ .probe b) →
      Monitors.facadeRun hf fe false events = false) ∧
    (Monitors.facadeStep hf fe s0 e = true → s0 = false → e = .probe true) := by
  refine ⟨rfl, ?_, ?_, ?_, ?_, ?_, ?_⟩
  · refine ⟨?_, ?_, ?_⟩ <;>
      · cases h : hf && fe <;>
          simp [Monitors.Counter, Monitors.Gauge, Monitors.Histogram,
            Monitors.writeStep, h]
  · refine ⟨?_, ?_, ?_⟩ <;>
      · cases h : hf && fe <;>
          simp [Monitors.Counter, Monitors.Gauge, Monitors.Histogram,
            Monitors.writeStep, h]
  · intro hhf hfe
    subst hhf; subst hfe
    refine ⟨?_, ?_, ?_⟩ <;>
      simp [Monitors.Counter, Monitors.Gauge, Monitors.Histogram,
        Monitors.writeStep]
  · intro hpc
    simp only [Monitors.NewMonitorWithFallback, decide_eq_false_iff_not]
    omega
  · intro hev
    induction events with
    | nil => rfl
    | cons ev rest ih =>
      have hev0 := hev ev (List.mem_cons_self ev rest)
      have hstep : Monitors.facadeStep hf fe false ev = false := by
        cases ev with
        | write p => exact Monitors.writeStep_degraded_stays hf fe p
        | probe b => exact absurd rfl (hev0 b)
      simp only [Monitors.facadeRun, List.foldl_cons, hstep]
      exact ih fun ev2 h2 => hev ev2 (List.mem_cons_of_mem _ h2)
  · intro hstep hs0
    subst hs0
    cases e with
    | write p =>
      rw [show Monitors.facadeStep hf fe false (.write p)
          = (Monitors.writeStep false hf fe p).isHealthy from rfl,
        Monitors.writeStep_degraded_stays hf fe p] at hstep
      exact absurd hstep (by simp)
    | probe b =>
      have : b = true := hstep
      rw [this]

/-- Witness for monitors_C4 at concrete arguments: initial health, the
degrade transition, degraded routing, no ticker at interval 0, and a
probe-free run staying degraded. -/
theorem monitors_C4_witness :
    (Monitors.NewMonitorWithFallback 0).isHealthy = true ∧
    (Monitors.Counter true true true false).isHealthy = false ∧
    (Monitors.Counter false true true true).primaryInvoked = false ∧
    (Monitors.Counter false true true true).result = .fallbackHandled ∧
    (Monitors.NewMonitorWithFallback 0).tickerStarted = false ∧
    Monitors.facadeRun true true false [.write true, .write false] = false := by
  have h := monitors_C4 0 true true true [.write true, .write false] (.write true)
    false
  exact ⟨h.1, h.2.1.1, h.2.2.1.1, (h.2.2.2.1 rfl rfl).1, h.2.2.2.2.1 (by decide),
    h.2.2.2.2.2.1 (by decide)⟩

/-- C5: the claim fails at capacity 0.  An enabled LocalLoggingFallback
with maxSize = 0 and an empty buffer accepts a point into the buffer —
the flush-first branch is a no-op on the empty buffer — leaving the
buffer at length 1 > maxSize. -/
theorem monitors_C5_counterexample :
    ((Monitors.HandleFailure (Monitors.LocalLoggingFallback.mk true [] 0 [])
        (Monitors.MetricData.mk "m" Monitors.counterType 1 [] 0)).1.buffer.length
      = 1) ∧
    (Monitors.LocalLoggingFallback.mk true [] 0 []).enabled = true ∧
    (Monitors.LocalLoggingFallback.mk true [] 0 []).maxSize = 0 ∧
    ¬((1 : Int) ≤ 0) := by
  refine ⟨?_, rfl, rfl, by decide⟩
  simp [Monitors.HandleFailure, Monitors.flushBuffer]

/-- C5 (amended): for every enabled LocalLoggingFallback with capacity
maxSize ≥ 1, HandleFailure flushes the full buffer synchronously before
appending — after the call the buffer holds at most maxSize points, a
full buffer is written to the log as one record before the new point is
appended, no point is lost (the points in the log and buffer afterwards
are exactly the old ones plus the new one, in order), and the call
returns nil. -/
theorem monitors_C5 (l : Monitors.LocalLoggingFallback) (md : Monitors.MetricData)
    (hen : l.enabled = true) (hsz : 1 ≤ l.maxSize) :
    (((Monitors.HandleFailure l md).1.buffer.length : Int) ≤ l.maxSize) ∧
    ((Monitors.HandleFailure l md).1.log.flatten
        ++ (Monitors.HandleFailure l md).1.buffer
      = l.log.flatten ++ l.buffer ++ [md]) ∧
    (l.maxSize ≤ (l.buffer.length : Int) →
      (Monitors.HandleFailure l md).1.log = l.log ++ [l.buffer] ∧
      (Monitors.HandleFailure l md).1.buffer = [md]) ∧
    (Monitors.HandleFailure l md).2 = none := by
  by_cases hfull : l.maxSize ≤ (l.buffer.length : Int)
  · have hne : l.buffer ≠ [] := by
      intro h
      rw [h] at hfull
      simp only [List.length_nil, Nat.cast_zero] at hfull
      omega
    simp only [Monitors.HandleFailure, hen, Bool.not_true, Bool.false_eq_true,
      if_false, if_pos hfull, Monitors.flushBuffer, if_neg hne]
    refine ⟨by simp; omega, by simp, fun _ => ⟨by trivial, by simp⟩, by trivial⟩
  · simp only [Monitors.HandleFailure, hen, Bool.not_true, Bool.false_eq_true,
      if_false, if_neg hfull]
    refine ⟨?_, by simp, fun h => absurd h hfull, by trivial⟩
    simp only [List.length_append, List.length_cons, List.length_nil]
    push_cast
    omega

/-- Witness for monitors_C5: appending to a full capacity-2 buffer
flushes [A, B] to the log and leaves the buffer holding only the new
point. -/
theorem monitors_C5_witness :
    ((Monitors.HandleFailure
        (Monitors.LocalLoggingFallback.mk true
          [Monitors.MetricData.mk "a" Monitors.counterType 1 [] 0,
           Monitors.MetricData.mk "b" Monitors.counterType 1 [] 0] 2 [])
        (Monitors.MetricData.mk "c" Monitors.counterType 1 [] 0)).1.log
      = [[Monitors.MetricData.mk "a" Monitors.counterType 1 [] 0,
          Monitors.MetricData.mk "b" Monitors.counterType 1 [] 0]]) ∧
    ((Monitors.HandleFailure
        (Monitors.LocalLoggingFallback.mk true
          [Monitors.MetricData.mk "a" Monitors.counterType 1 [] 0,
           Monitors.MetricData.mk "b" Monitors.counterType 1 [] 0] 2 [])
        (Monitors.MetricData.mk "c" Monitors.counterType 1 [] 0)).1.buffer
      = [Monitors.MetricData.mk "c" Monitors.counterType 1 [] 0]) := by
  have h := monitors_C5
    (Monitors.LocalLoggingFallback.mk true
      [Monitors.MetricData.mk "a" Monitors.counterType 1 [] 0,
       Monitors.MetricData.mk "b" Monitors.counterType 1 [] 0] 2 [])
    (Monitors.MetricData.mk "c" Monitors.counterType 1 [] 0) rfl (by decide)
  have h2 := h.2.2.1 (by simp)
  exact ⟨h2.1, h2.2⟩

end HASystem

namespace HASystem

namespace Healthcheck

/-- Looking up the upserted key finds the new value. -/
lemma lookup_upsert_self (l : List (String × Result)) (k : String) (v : Result) :
    (upsert l k v).lookup k = some v := by
  induction l with
  | nil => simp [upsert, List.lookup]
  | cons p rest ih =>
    obtain ⟨k2, v2⟩ := p
    by_cases h : k2 = k
    · subst h
      simp [upsert, List.lookup]
    · have hb : (k == k2) = false := beq_eq_false_iff_ne.mpr (Ne.symm h)
      simp [upsert, h, List.lookup, hb, ih]

/-- Upserting never removes a key that was present. -/
lemma lookup_upsert_isSome (l : List (String × Result)) (k k2 : String) (v : Result)
    (h : (l.lookup k).isSome = true) :
    ((upsert l k2 v).lookup k).isSome = true := by
  by_cases hk : k = k2
  · subst hk
    rw [lookup_upsert_self]
    rfl
  · have hb : (k == k2) = false := beq_eq_false_iff_ne.mpr hk
    induction l with
    | nil => simp [List.lookup] at h
    | cons p rest ih =>
      obtain ⟨ka, va⟩ := p
      by_cases hka : ka = k2
      · have hbka : (k == ka) = false := by rw [hka]; exact hb
        simp only [upsert, if_pos hka, List.lookup, hb]
        simp only [List.lookup, hbka] at h
        exact h
      · simp only [upsert, if_neg hka, List.lookup]
        simp only [List.lookup] at h
        cases hkk : (k == ka) with
        | true => rfl
        | false =>
          rw [hkk] at h
          exact ih h

/-- Aggregate status of the loop: DOWN exactly when the accumulator was
already DOWN or some remaining check reports DOWN. -/
lemma runChecksLoop_status (cs : List Check) :
    ∀ agg : AggregateResult,
      ((runChecksLoop agg cs).status = statusDown
        ↔ agg.status = statusDown ∨ ∃ c ∈ cs, c.execStatus = statusDown) := by
  induction cs with
  | nil => intro agg; simp [runChecksLoop]
  | cons c rest ih =>
    intro agg
    simp only [runChecksLoop]
    rw [ih]
    by_cases hc : c.execStatus = statusDown
    · simp only [hc, if_pos rfl]
      constructor
      · intro _
        exact Or.inr ⟨c, List.mem_cons_self c rest, hc⟩
      · intro _
        exact Or.inl rfl
    · simp only [if_neg hc]
      constructor
      · rintro (h | ⟨c2, hc2, h2⟩)
        · exact Or.inl h
        · exact Or.inr ⟨c2, List.mem_cons_of_mem _ hc2, h2⟩
      · rintro (h | ⟨c2, hc2, h2⟩)
        · exact Or.inl h
        · rcases List.mem_cons.mp hc2 with rfl | hmem
          · exact absurd h2 hc
          · exact Or.inr ⟨c2, hmem, h2⟩

/-- Every check processed by the loop (and every key already present)
has an entry in the final Details. -/
lemma runChecksLoop_details (cs : List Check) :
    ∀ (agg : AggregateResult) (k : String),
      ((agg.details.lookup k).isSome = true ∨ ∃ c ∈ cs, c.name = k) →
      (((runChecksLoop agg cs).details.lookup k).isSome = true) := by
  induction cs with
  | nil =>
    intro agg k h
    rcases h with h | ⟨c, hc, _⟩
    · simpa [runChecksLoop] using h
    · exact absurd hc (List.not_mem_nil c)
  | cons c rest ih =>
    intro agg k h
    simp only [runChecksLoop]
    apply ih
    rcases h with h | ⟨c2, hc2, hname⟩
    · exact Or.inl (lookup_upsert_isSome _ _ _ _ h)
    · rcases List.mem_cons.mp hc2 with rfl | hmem
      · subst hname
        left
        rw [lookup_upsert_self]
        rfl
      · exact Or.inr ⟨c2, hmem, hname⟩

end Healthcheck

/-- C6: Checker.RunChecks records a result for every registered check in
Details, its aggregate status is DOWN exactly when at least one check's
Execute reports DOWN, and the empty check set yields status UP with
empty details. -/
theorem healthcheck_C6 (checks : List Healthcheck.Check) :
    ((Healthcheck.RunChecks checks).status = Healthcheck.statusDown
      ↔ ∃ c ∈ checks, c.execStatus = Healthcheck.statusDown) ∧
    Healthcheck.RunChecks []
      = { status := Healthcheck.statusUp, details := [] } ∧
    (∀ c ∈ checks,
      (((Healthcheck.RunChecks checks).details.lookup c.name).isSome = true)) := by
  refine ⟨?_, rfl, ?_⟩
  · cases checks with
    | nil =>
      simp only [Healthcheck.RunChecks, if_pos rfl]
      constructor
      · intro h
        exact absurd h (by decide)
      · rintro ⟨c, hc, _⟩
        exact absurd hc (List.not_mem_nil c)
    | cons c rest =>
      rw [show Healthcheck.RunChecks (c :: rest)
          = Healthcheck.runChecksLoop
              { status := Healthcheck.statusUp, details := [] } (c :: rest) from rfl,
        Healthcheck.runChecksLoop_status]
      simp only [show (Healthcheck.statusUp = Healthcheck.statusDown) = False by
        simp [Healthcheck.statusUp, Healthcheck.statusDown]]
      tauto
  · intro c hc
    cases checks with
    | nil => exact absurd hc (List.not_mem_nil c)
    | cons c0 rest =>
      rw [show Healthcheck.RunChecks (c0 :: rest)
          = Healthcheck.runChecksLoop
              { status := Healthcheck.statusUp, details := [] } (c0 :: rest) from rfl]
      exact Healthcheck.runChecksLoop_details (c0 :: rest) _ c.name
        (Or.inr ⟨c, hc, rfl⟩)

/-- Witness for healthcheck_C6: one DOWN check among two makes the
aggregate DOWN, and both checks appear in Details. -/
theorem healthcheck_C6_witness :
    (Healthcheck.RunChecks
        [Healthcheck.Check.mk "db" Healthcheck.statusUp none,
         Healthcheck.Check.mk "api" Healthcheck.statusDown (some "conn refused")]
      ).status = Healthcheck.statusDown ∧
    (((Healthcheck.RunChecks
        [Healthcheck.Check.mk "db" Healthcheck.statusUp none,
         Healthcheck.Check.mk "api" Healthcheck.statusDown (some "conn refused")]
      ).details.lookup "db").isSome = true) := by
  have h := healthcheck_C6
    [Healthcheck.Check.mk "db" Healthcheck.statusUp none,
     Healthcheck.Check.mk "api" Healthcheck.statusDown (some "conn refused")]
  refine ⟨h.1.mpr ⟨Healthcheck.Check.mk "api" Healthcheck.statusDown
      (some "conn refused"), by simp, rfl⟩,
    h.2.2 (Healthcheck.Check.mk "db" Healthcheck.statusUp none) (by simp)⟩

end HASystem
